import Mathlib

/-!
Verification of the day-06 grid-patrol simulator (`src/day06/src/main.rs`).

The Rust code is shallowly embedded: the mutable `SituationMap` becomes a
value that every operation returns updated; `usize` becomes `Nat` (no
arithmetic here can overflow a 64-bit machine word for any grid that fits
in memory, and the source never relies on wrapping); `Vec<MapElements>`
becomes `List MapElements`; `HashSet` becomes a duplicate-free list with
insert-if-absent (only membership, insertion and size are used); fallible
operations return `Option` / `Except`; a Rust `panic!` or an
out-of-fuel loop is the outer `none`.
-/

namespace Day06

/-- Grid coordinate, mirroring `struct Coord { row: usize, col: usize }`. -/
structure Coord where
  row : Nat
  col : Nat
deriving DecidableEq

/-- Facing direction, mirroring `enum Orientation`. -/
inductive Orientation where
  | Up
  | Right
  | Down
  | Left
deriving DecidableEq

/-- Cell state, mirroring `enum MapElements`. -/
inductive MapElements where
  | Free
  | PrevouslySeen
  | Obstructed
deriving DecidableEq

/-- The agent, mirroring `struct Player { orientation, coords }`. -/
structure Player where
  orientation : Orientation
  coords : Coord
deriving DecidableEq

/-- The board, mirroring `struct SituationMap { player, map, map_width, map_height }`.
The row-major cell vector `map` is a list. -/
structure SituationMap where
  player : Player
  map : List MapElements
  map_width : Nat
  map_height : Nat
deriving DecidableEq

/-- Clockwise rotation, mirroring `Orientation::rotate_right` (the Rust
method takes `&mut self` but only returns the rotated value). -/
def rotate_right : Orientation → Orientation
  | Orientation.Up => Orientation.Right
  | Orientation.Right => Orientation.Down
  | Orientation.Down => Orientation.Left
  | Orientation.Left => Orientation.Up

/-- Bounds-checked read, mirroring `SituationMap::what_is_at`: two guard
checks, then `Vec::get` (here `List.get?`) at the flattened index. -/
def what_is_at (m : SituationMap) (coord : Coord) : Option MapElements :=
  if coord.col ≥ m.map_width then none
  else if coord.row ≥ m.map_height then none
  else m.map.get? (m.map_width * coord.row + coord.col)

/-- Unchecked write, mirroring `SituationMap::set_at`:
`self.map[(width * row) + col] = element` with no bounds check on the
coordinate (the Rust indexing panics only when the flattened index is
outside the vector; `List.set` is the same write for an in-vector index). -/
def set_at (m : SituationMap) (coord : Coord) (element : MapElements) : SituationMap :=
  { m with map := m.map.set (m.map_width * coord.row + coord.col) element }

/-- Checked write, mirroring `SituationMap::update_map`: the coordinate
bounds check `panic!`s (modelled as `none`) before the raw write. -/
def update_map (m : SituationMap) (a : Coord) (element : MapElements) : Option SituationMap :=
  if a.row + 1 > m.map_height ∨ a.col + 1 > m.map_width then none
  else some (set_at m a element)

/-- Visited-cell count, mirroring `SituationMap::seen_tiles`. -/
def seen_tiles (m : SituationMap) : Nat :=
  m.map.countP (fun t => decide (t = MapElements.PrevouslySeen))

/-- Neighbor coordinate one step in the facing direction, with the
source's exact edge guards (the first `match` inside
`SituationMap::what_is_in_front`, factored out under a name). -/
def front_coord (m : SituationMap) (p : Player) : Option Coord :=
  match p.orientation with
  | Orientation.Up =>
    if p.coords.row = 0 then none
    else some { row := p.coords.row - 1, col := p.coords.col }
  | Orientation.Right =>
    if p.coords.col ≥ m.map_width then none
    else some { row := p.coords.row, col := p.coords.col + 1 }
  | Orientation.Down =>
    if p.coords.row + 1 ≥ m.map_height then none
    else some { row := p.coords.row + 1, col := p.coords.col }
  | Orientation.Left =>
    if p.coords.col = 0 then none
    else some { row := p.coords.row, col := p.coords.col - 1 }

/-- Ahead query, mirroring `SituationMap::what_is_in_front`: compute the
neighbor coordinate in the facing direction, then read it; `none` when
either part yields nothing (the source's two `?` operators become the
`Option` bind and map). -/
def what_is_in_front (m : SituationMap) (p : Player) : Option (Coord × MapElements) :=
  (front_coord m p).bind fun c => (what_is_at m c).map fun e => (c, e)

/-- Shared body of `step`'s move arm (the Rust or-pattern
`Free | PrevouslySeen`): move the cursor, mark the cell through the
checked writer, return the new coordinate. The outer `none` is the
`update_map` panic. -/
def stepMove (m : SituationMap) (coord : Coord) : Option (SituationMap × Option Coord) :=
  match update_map { m with player := { m.player with coords := coord } } coord
      MapElements.PrevouslySeen with
  | none => none
  | some m2 => some (m2, some coord)

/-- Single-step transition, mirroring `SituationMap::step`. The result is
`some (newBoard, r)` where `r` is the Rust `Option<&Coord>` return value;
the outer `none` models the (unreachable) `update_map` panic. -/
def step (m : SituationMap) : Option (SituationMap × Option Coord) :=
  match what_is_in_front m m.player with
  | none => some (m, none)
  | some (coord, MapElements.Free) => stepMove m coord
  | some (coord, MapElements.PrevouslySeen) => stepMove m coord
  | some (_, MapElements.Obstructed) =>
    some ({ m with player := { m.player with orientation := rotate_right m.player.orientation } },
      some m.player.coords)

/-- Loop body of `SituationMap::test_circular_path`, with explicit fuel
(the Rust `loop` has none; theorem `test_circular_path_terminates` shows a
grid-derived fuel always suffices). `m` is the board after the candidate
cell was obstructed; `loc`/`tile` are `old_location`/`old_tile`; `vis` is
the `HashSet<(Coord, Orientation)>` as a duplicate-free list. -/
def tcp_loop (m : SituationMap) (loc : Coord) (tile : MapElements) :
    Nat → Player → List (Coord × Orientation) → Option (SituationMap × Option Coord)
  | 0, _, _ => none
  | fuel + 1, vp, vis =>
    match what_is_in_front m vp with
    | none => some (set_at m loc tile, none)
    | some (coord, MapElements.Free) => tcp_loop m loc tile fuel { vp with coords := coord } vis
    | some (coord, MapElements.PrevouslySeen) =>
      tcp_loop m loc tile fuel { vp with coords := coord } vis
    | some (_, MapElements.Obstructed) =>
      if (vp.coords, rotate_right vp.orientation) ∈ vis then
        some (set_at m loc tile, some loc)
      else
        tcp_loop m loc tile fuel { vp with orientation := rotate_right vp.orientation }
          ((vp.coords, rotate_right vp.orientation) :: vis)

/-- Cycle test, mirroring `SituationMap::test_circular_path`. Returns
`some (newBoard, r)` with `r` the Rust `Option<Coord>` result; the `?` on
the first ahead query is the early `return None` with the board untouched.
Outer `none` = out of fuel. -/
def test_circular_path (m : SituationMap) (starting_at : Coord) (orientation : Orientation)
    (fuel : Nat) : Option (SituationMap × Option Coord) :=
  match what_is_in_front m { orientation := orientation, coords := starting_at } with
  | none => some (m, none)
  | some (old_location, old_tile) =>
    tcp_loop (set_at m old_location MapElements.Obstructed) old_location old_tile
      fuel { orientation := orientation, coords := starting_at } []

/-- Fuel that theorem `test_circular_path_terminates` proves sufficient
for `test_circular_path` on a given board. -/
def tcpFuel (m : SituationMap) : Nat :=
  (4 * m.map_width * m.map_height + 1) * (m.map_width + m.map_height + 1)

/-- Walk loop of `solve_part_1` (the display-only printing of the source
is dropped; it does not touch the board). Fuel models the unbounded Rust
`loop`; `none` = out of fuel or a `step` panic. -/
def part1_loop : Nat → SituationMap → Option SituationMap
  | 0, _ => none
  | fuel + 1, board =>
    match step board with
    | none => none
    | some (b, none) => some b
    | some (b, some _) => part1_loop fuel b

/-- Part-1 driver, mirroring `solve_part_1`: run the walk to exit, then
count visited cells. -/
def solve_part_1 (board : SituationMap) (fuel : Nat) : Option Nat :=
  (part1_loop fuel board).map seen_tiles

/-- One tick's candidate check in `solve_part_2`: when the cell directly
ahead is `Free`, run the cycle test from the current cursor and insert a
reported candidate into the accumulator set `vis` (a duplicate-free list
standing for the `HashSet<Coord>`); otherwise change nothing. `none` =
the cycle test ran out of fuel. -/
def part2_check (board : SituationMap) (vis : List Coord) :
    Option (SituationMap × List Coord) :=
  match what_is_in_front board board.player with
  | some (_, MapElements.Free) =>
    match test_circular_path board board.player.coords board.player.orientation
        (tcpFuel board) with
    | none => none
    | some (b2, none) => some (b2, vis)
    | some (b2, some c) => some (b2, vis.insert c)
  | _ => some (board, vis)

/-- Loop of `solve_part_2`: each iteration first runs the candidate check
`part2_check`, then performs one real `step`, stopping when the walk
exits. `none` = out of fuel or a panic. -/
def part2_loop : Nat → SituationMap → List Coord → Option (List Coord)
  | 0, _, _ => none
  | fuel + 1, board, vis =>
    match part2_check board vis with
    | none => none
    | some (board2, vis2) =>
      match step board2 with
      | none => none
      | some (_, none) => some vis2
      | some (b3, some _) => part2_loop fuel b3 vis2

/-- Part-2 driver, mirroring `solve_part_2`: one real `step` happens
before the check loop starts (`if board.step().is_none() { return 0; }`),
then the loop runs; the answer is the size of the candidate set. -/
def solve_part_2 (board : SituationMap) (fuel : Nat) : Option Nat :=
  match step board with
  | none => none
  | some (_, none) => some 0
  | some (b, some _) => (part2_loop fuel b []).map List.length

/-- Board after one `step` call, discarding the returned coordinate
(used to talk about sequences of `step` calls). -/
def stepMap (m : SituationMap) : Option SituationMap :=
  (step m).map Prod.fst

/-- Board after `n` consecutive `step` calls. -/
def stepN : Nat → SituationMap → Option SituationMap
  | 0, m => some m
  | n + 1, m => (stepMap m).bind (stepN n)

/-- Splits a character list into lines exactly as Rust `str::lines`
does: a line is terminated by `"\n"` or by `"\r\n"` (the terminator is
dropped, and a final terminator produces no trailing empty line), while
a carriage return not followed by a line feed — including one at the
very end of the input — stays inside its line. -/
def splitLinesChars : List Char → List (List Char)
  | [] => []
  | '\x0a' :: cs => [] :: splitLinesChars cs
  | '\x0d' :: '\x0a' :: cs => [] :: splitLinesChars cs
  | c :: cs =>
    match splitLinesChars cs with
    | [] => [[c]]
    | l :: ls => (c :: l) :: ls

/-- The lines of the input as character lists (Rust `value.lines()`; for
the all-ASCII alphabet the parser accepts, Rust's byte-based `len()`
equals the character count used here). -/
def charLines (s : String) : List (List Char) :=
  splitLinesChars s.data

/-- Orientation denoted by a cursor glyph, mirroring the source's inner
`match c` over `'^' | '>' | 'v' | '<'`. -/
def glyphOrient (c : Char) : Option Orientation :=
  if c = '^' then some Orientation.Up
  else if c = '>' then some Orientation.Right
  else if c = 'v' then some Orientation.Down
  else if c = '<' then some Orientation.Left
  else none

/-- One character of the parse loop, mirroring the `match c` in
`TryFrom<&str> for SituationMap` (error strings abbreviated; the claims
treat messages as unspecified). -/
def parseChar (row col : Nat) (c : Char) (player : Option Player) :
    Except String (MapElements × Option Player) :=
  if c = '.' then Except.ok (MapElements.Free, player)
  else if c = '#' then Except.ok (MapElements.Obstructed, player)
  else
    match glyphOrient c with
    | none => Except.error ("Map contains a char that we cannot parse")
    | some o =>
      match player with
      | some _ => Except.error ("Duplicate player")
      | none =>
        Except.ok (MapElements.PrevouslySeen,
          some { orientation := o, coords := { row := row, col := col } })

/-- Inner loop over one line's characters (`for (col, c) in line.chars().enumerate()`),
threading the optional player and producing the line's cells in order. -/
def parseRowChars (row : Nat) :
    Nat → List Char → Option Player → Except String (List MapElements × Option Player)
  | _, [], player => Except.ok ([], player)
  | col, c :: rest, player =>
    match parseChar row col c player with
    | Except.error e => Except.error e
    | Except.ok (el, player2) =>
      match parseRowChars row (col + 1) rest player2 with
      | Except.error e => Except.error e
      | Except.ok (els, player3) => Except.ok (el :: els, player3)

/-- Outer loop over the lines (`for (row, line) in value.lines().enumerate()`):
per-line width check, then the character loop; accumulates the row-major
cell list and the height. -/
def parseLines (width : Nat) :
    Nat → List (List Char) → Option Player →
      Except String (List MapElements × Nat × Option Player)
  | _, [], player => Except.ok ([], 0, player)
  | row, line :: rest, player =>
    if line.length = width then
      match parseRowChars row 0 line player with
      | Except.error e => Except.error e
      | Except.ok (cells, player2) =>
        match parseLines width (row + 1) rest player2 with
        | Except.error e => Except.error e
        | Except.ok (cells2, h, player3) => Except.ok (cells ++ cells2, h + 1, player3)
    else Except.error ("Line is not of the first line's width")

/-- Grid construction from text, mirroring `TryFrom<&str> for SituationMap`:
width from the first line (error when there is none), the two nested
loops, and the final check that a player was found. -/
def try_from (value : String) : Except String SituationMap :=
  match charLines value with
  | [] =>
    Except.error ("Failed to get map width because the board does not contain at least one line.")
  | first :: rest =>
    match parseLines first.length 0 (first :: rest) none with
    | Except.error e => Except.error e
    | Except.ok (cells, height, op) =>
      match op with
      | none => Except.error ("Failed to detect player")
      | some player =>
        Except.ok { player := player, map := cells, map_width := first.length, map_height := height }

/-! ### Concrete boards and spec-side counting definitions used by the theorems -/

/-- Two-by-two all-free board, a concrete input for counterexamples and
witnesses. -/
def twoByTwo : SituationMap :=
  { player := { orientation := Orientation.Up, coords := { row := 1, col := 1 } },
    map := [MapElements.Free, MapElements.Free, MapElements.Free, MapElements.Free],
    map_width := 2, map_height := 2 }

/-- One-by-one board whose cursor faces the top edge, so nothing lies
ahead of it. -/
def oneByOne : SituationMap :=
  { player := { orientation := Orientation.Up, coords := { row := 0, col := 0 } },
    map := [MapElements.PrevouslySeen], map_width := 1, map_height := 1 }

/-- One-by-two board whose cursor faces Right onto a Free cell. -/
def oneByTwoRight : SituationMap :=
  { player := { orientation := Orientation.Right, coords := { row := 0, col := 0 } },
    map := [MapElements.PrevouslySeen, MapElements.Free], map_width := 2, map_height := 1 }

/-- Distance from the cursor to the boundary it is walking towards; the
loop's move steps strictly decrease it (a proof-side measure, not source
code). -/
def distAhead (m : SituationMap) (p : Player) : Nat :=
  match p.orientation with
  | Orientation.Up => p.coords.row
  | Orientation.Right => m.map_width - p.coords.col
  | Orientation.Down => m.map_height - p.coords.row
  | Orientation.Left => p.coords.col

/-- All (in-bounds coordinate, orientation) pairs of a board — the
universe the cycle test's visited set lives in (proof-side). -/
def coordUniv (m : SituationMap) : Finset (Coord × Orientation) :=
  ((Finset.range m.map_height ×ˢ Finset.range m.map_width).image
      (fun pr => ({ row := pr.1, col := pr.2 } : Coord))) ×ˢ
    {Orientation.Up, Orientation.Right, Orientation.Down, Orientation.Left}

/-- Text of the C4 counterexample board. -/
def cexInput : String := ".#..\n#>..\n.#.."

/-- The C4 counterexample board: cursor at (1,1) facing Right, with
obstructions above, left of, and below it; the Free cell (1,2) directly
ahead completes a cycle when obstructed. -/
def cexBoard : SituationMap :=
  { player := { orientation := Orientation.Right, coords := { row := 1, col := 1 } },
    map := [MapElements.Free, MapElements.Obstructed, MapElements.Free, MapElements.Free,
      MapElements.Obstructed, MapElements.PrevouslySeen, MapElements.Free, MapElements.Free,
      MapElements.Free, MapElements.Obstructed, MapElements.Free, MapElements.Free],
    map_width := 4, map_height := 3 }

/-- Text of the standard 10x10 worked example. -/
def exampleInput : String :=
  "....#.....\n.........#\n..........\n..#.......\n.......#..\n..........\n.#..^.....\n........#.\n#.........\n......#..."

/-- Number of players an `Option Player` holds (0 or 1). -/
def playerCount : Option Player → Nat
  | none => 0
  | some _ => 1

/-- The parser's accepted alphabet. -/
def isValidChar (c : Char) : Bool :=
  decide (c = '.') || decide (c = '#') || (glyphOrient c).isSome

/-- Number of cursor glyphs in a character list. -/
def countGlyphs (cs : List Char) : Nat :=
  cs.countP (fun c => (glyphOrient c).isSome)

/-- Number of cursor glyphs across all lines. -/
def countGlyphsLines (ls : List (List Char)) : Nat :=
  (ls.map countGlyphs).sum

/-- The parse of the input `"^."`, used as a concrete witness board. -/
def parsedTiny : SituationMap :=
  { player := { orientation := Orientation.Up, coords := { row := 0, col := 0 } },
    map := [MapElements.PrevouslySeen, MapElements.Free], map_width := 2, map_height := 1 }

/-! ### List helper lemmas -/

lemma get?_some_lt {α : Type} : ∀ (l : List α) (n : Nat) (a : α), l.get? n = some a → n < l.length
  | [], n, a, h => by simp at h
  | _ :: _, 0, _, _ => Nat.succ_pos _
  | _ :: xs, n + 1, a, h => Nat.succ_lt_succ (get?_some_lt xs n a h)

lemma set_get?_self {α : Type} :
    ∀ (l : List α) (n : Nat) (a : α), l.get? n = some a → l.set n a = l
  | [], _, _, h => by simp at h
  | x :: xs, 0, a, h => by
    have hx : x = a := Option.some.inj h
    subst hx
    rfl
  | x :: xs, n + 1, a, h => by
    have ih := set_get?_self xs n a h
    show x :: xs.set n a = x :: xs
    rw [ih]

lemma countP_le_countP_set {α : Type} (p : α → Bool) :
    ∀ (l : List α) (n : Nat) (a : α), p a = true → l.countP p ≤ (l.set n a).countP p
  | [], _, _, _ => Nat.le_refl _
  | x :: xs, 0, a, h => by
    show (x :: xs).countP p ≤ (a :: xs).countP p
    rw [List.countP_cons, List.countP_cons, h]
    by_cases hx : p x <;> simp [hx]
  | x :: xs, n + 1, a, h => by
    show (x :: xs).countP p ≤ (x :: xs.set n a).countP p
    rw [List.countP_cons, List.countP_cons]
    exact Nat.add_le_add_right (countP_le_countP_set p xs n a h) _

/-! ### Basic facts about grid reads and the ahead query -/

lemma what_is_at_bounds (m : SituationMap) (c : Coord) (e : MapElements)
    (h : what_is_at m c = some e) :
    c.row < m.map_height ∧ c.col < m.map_width ∧
      m.map.get? (m.map_width * c.row + c.col) = some e := by
  unfold what_is_at at h
  by_cases h1 : c.col ≥ m.map_width
  · rw [if_pos h1] at h; cases h
  · rw [if_neg h1] at h
    by_cases h2 : c.row ≥ m.map_height
    · rw [if_pos h2] at h; cases h
    · rw [if_neg h2] at h
      exact ⟨by omega, by omega, h⟩

lemma front_what_is_at (m : SituationMap) (p : Player) (c : Coord) (e : MapElements)
    (h : what_is_in_front m p = some (c, e)) :
    front_coord m p = some c ∧ what_is_at m c = some e := by
  unfold what_is_in_front at h
  rw [Option.bind_eq_some] at h
  obtain ⟨c2, hf, hmap⟩ := h
  rw [Option.map_eq_some'] at hmap
  obtain ⟨e2, ha, heq⟩ := hmap
  simp only [Prod.mk.injEq] at heq
  obtain ⟨rfl, rfl⟩ := heq
  exact ⟨hf, ha⟩

lemma flat_index_inj (w r1 c1 r2 c2 : Nat) (h1 : c1 < w) (h2 : c2 < w)
    (h : w * r1 + c1 = w * r2 + c2) : r1 = r2 ∧ c1 = c2 := by
  have e1 : (w * r1 + c1) % w = c1 % w := Nat.mul_add_mod w r1 c1
  have e2 : (w * r2 + c2) % w = c2 % w := Nat.mul_add_mod w r2 c2
  rw [h, e2] at e1
  rw [Nat.mod_eq_of_lt h2, Nat.mod_eq_of_lt h1] at e1
  have hc : c1 = c2 := e1.symm
  subst hc
  have hr : w * r1 = w * r2 := by omega
  exact ⟨Nat.eq_of_mul_eq_mul_left (by omega) hr, rfl⟩

/-! ### Claim theorems: rotation, out-of-range access, early cycle-test return -/

/-- C9: clockwise rotation is a 4-cycle — four applications of
`rotate_right` are the identity, and a single application maps
Up to Right, Right to Down, Down to Left, and Left to Up (the match is
total, so no other transitions exist). -/
theorem rotate_right_is_four_cycle :
    (∀ o, rotate_right (rotate_right (rotate_right (rotate_right o))) = o) ∧
    rotate_right Orientation.Up = Orientation.Right ∧
    rotate_right Orientation.Right = Orientation.Down ∧
    rotate_right Orientation.Down = Orientation.Left ∧
    rotate_right Orientation.Left = Orientation.Up := by
  refine ⟨fun o => ?_, rfl, rfl, rfl, rfl⟩
  cases o <;> rfl


/-- C6 counterexample: `set_at` does not reject an out-of-range write.
On the 2x2 board, writing at the out-of-range coordinate (row 0, col 2)
silently lands on the in-bounds cell (row 1, col 0): the flattened index
wraps to a different cell, so the write is neither rejected nor a no-op. -/
theorem set_at_out_of_range_wraps :
    ({ row := 0, col := 2 } : Coord).col ≥ twoByTwo.map_width ∧
    what_is_at twoByTwo { row := 1, col := 0 } = some MapElements.Free ∧
    what_is_at (set_at twoByTwo { row := 0, col := 2 } MapElements.Obstructed)
        { row := 1, col := 0 } = some MapElements.Obstructed ∧
    set_at twoByTwo { row := 0, col := 2 } MapElements.Obstructed ≠ twoByTwo := by
  refine ⟨by decide, rfl, rfl, by decide⟩

/-- C6 amended: for every out-of-range coordinate the read `what_is_at`
returns `none` (it is total, hence never panics), and the checked writer
`update_map` — not `set_at`, which performs no bounds check at all —
rejects the write (it panics instead of writing, modelled as `none`). -/
theorem out_of_range_read_none_write_rejected (m : SituationMap) (c : Coord) (e : MapElements)
    (h : c.row ≥ m.map_height ∨ c.col ≥ m.map_width) :
    what_is_at m c = none ∧ update_map m c e = none := by
  constructor
  · unfold what_is_at
    by_cases h1 : c.col ≥ m.map_width
    · rw [if_pos h1]
    · rw [if_neg h1]
      by_cases h2 : c.row ≥ m.map_height
      · rw [if_pos h2]
      · exfalso; omega
  · have hcond : c.row + 1 > m.map_height ∨ c.col + 1 > m.map_width := by omega
    simp [update_map, hcond]

/-- Witness for the C6 amended theorem at a concrete out-of-range row. -/
theorem out_of_range_read_none_write_rejected_witness :
    what_is_at twoByTwo { row := 2, col := 0 } = none ∧
    update_map twoByTwo { row := 2, col := 0 } MapElements.Obstructed = none :=
  out_of_range_read_none_write_rejected twoByTwo { row := 2, col := 0 }
    MapElements.Obstructed (Or.inl (by decide))

/-- C10: when nothing lies ahead of the starting cursor, the cycle test
returns no-cycle immediately with the board untouched — the early `?`
return fires before the candidate cell is obstructed, so no grid write
whatsoever happens. -/
theorem test_circular_path_no_front (m : SituationMap) (s : Coord) (o : Orientation)
    (fuel : Nat) (h : what_is_in_front m { orientation := o, coords := s } = none) :
    test_circular_path m s o fuel = some (m, none) := by
  simp [test_circular_path, h]


/-- Witness for C10 on the one-by-one board. -/
theorem test_circular_path_no_front_witness :
    test_circular_path oneByOne { row := 0, col := 0 } Orientation.Up 5 = some (oneByOne, none) :=
  test_circular_path_no_front oneByOne { row := 0, col := 0 } Orientation.Up 5 rfl

/-- C1: the single-step transition contract of `step`. When nothing lies
ahead, `step` reports `none` and leaves the board (cursor and grid)
unchanged. When the ahead cell is Obstructed, `step` only rotates the
cursor clockwise in place — same coordinate, same grid — and returns the
current coordinate. Otherwise (Free or Visited ahead) `step` moves the
cursor to the ahead cell, marks exactly that cell Visited (every other
cell reads back unchanged), and returns the new coordinate. The outer
`some` says the `update_map` panic can never fire. -/
theorem step_contract (m : SituationMap) :
    (what_is_in_front m m.player = none → step m = some (m, none)) ∧
    (∀ c, what_is_in_front m m.player = some (c, MapElements.Obstructed) →
      step m = some ({ m with player :=
        { m.player with orientation := rotate_right m.player.orientation } },
        some m.player.coords)) ∧
    (∀ c e, what_is_in_front m m.player = some (c, e) → e ≠ MapElements.Obstructed →
      ∃ m2, step m = some (m2, some c) ∧
        m2.player.coords = c ∧
        m2.player.orientation = m.player.orientation ∧
        m2.map_width = m.map_width ∧
        m2.map_height = m.map_height ∧
        what_is_at m2 c = some MapElements.PrevouslySeen ∧
        (∀ c2, c2 ≠ c → what_is_at m2 c2 = what_is_at m c2)) := by
  refine ⟨fun h => by simp [step, h], fun c h => by simp [step, h], fun c e h hne => ?_⟩
  obtain ⟨hfc, hat⟩ := front_what_is_at m m.player c e h
  obtain ⟨hrow, hcol, hget⟩ := what_is_at_bounds m c e hat
  have hlen : m.map_width * c.row + c.col < m.map.length := get?_some_lt _ _ _ hget
  have hcond : ¬(c.row + 1 > m.map_height ∨ c.col + 1 > m.map_width) := by omega
  have hupd : update_map { m with player := { m.player with coords := c } } c
      MapElements.PrevouslySeen =
      some (set_at { m with player := { m.player with coords := c } } c
        MapElements.PrevouslySeen) := by
    unfold update_map
    rw [if_neg hcond]
  refine ⟨set_at { m with player := { m.player with coords := c } } c MapElements.PrevouslySeen,
    ?_, rfl, rfl, rfl, rfl, ?_, ?_⟩
  · cases e with
    | Obstructed => exact absurd rfl hne
    | Free => simp [step, h, stepMove, hupd]
    | PrevouslySeen => simp [step, h, stepMove, hupd]
  · unfold what_is_at set_at
    rw [if_neg (by simpa using Nat.not_le_of_lt hcol),
      if_neg (by simpa using Nat.not_le_of_lt hrow)]
    exact List.get?_set_eq_of_lt _ hlen
  · intro c2 hne2
    unfold what_is_at set_at
    by_cases h1 : c2.col ≥ m.map_width
    · rw [if_pos h1, if_pos h1]
    · rw [if_neg h1, if_neg h1]
      by_cases h2 : c2.row ≥ m.map_height
      · rw [if_pos h2, if_pos h2]
      · rw [if_neg h2, if_neg h2]
        apply List.get?_set_ne
        intro hidx
        exact hne2 (by
          obtain ⟨hr, hc⟩ := flat_index_inj m.map_width c.row c.col c2.row c2.col
            hcol (by omega) hidx
          cases c2; cases c
          simp_all)


/-- Witness for C1: the exit branch on the one-by-one board and the move
branch on the one-by-two board. -/
theorem step_contract_witness :
    step oneByOne = some (oneByOne, none) ∧
    (∃ m2, step oneByTwoRight = some (m2, some { row := 0, col := 1 }) ∧
      m2.player.coords = { row := 0, col := 1 } ∧
      m2.player.orientation = oneByTwoRight.player.orientation ∧
      m2.map_width = oneByTwoRight.map_width ∧
      m2.map_height = oneByTwoRight.map_height ∧
      what_is_at m2 { row := 0, col := 1 } = some MapElements.PrevouslySeen ∧
      (∀ c2, c2 ≠ { row := 0, col := 1 } →
        what_is_at m2 c2 = what_is_at oneByTwoRight c2)) :=
  ⟨(step_contract oneByOne).1 rfl,
    (step_contract oneByTwoRight).2.2 { row := 0, col := 1 } MapElements.Free rfl
      (by decide)⟩

/-! ### Cycle test: restoration invariant (C2) -/

lemma tcp_loop_result (m : SituationMap) (loc : Coord) (tile : MapElements) :
    ∀ (fuel : Nat) (vp : Player) (vis : List (Coord × Orientation)) (m2 : SituationMap)
      (r : Option Coord),
      tcp_loop m loc tile fuel vp vis = some (m2, r) →
      m2 = set_at m loc tile ∧ ∀ c, r = some c → c = loc := by
  intro fuel
  induction fuel with
  | zero => intro vp vis m2 r h; cases h
  | succ fuel ih =>
    intro vp vis m2 r h
    rw [tcp_loop] at h
    split at h
    · simp only [Option.some.injEq, Prod.mk.injEq] at h
      obtain ⟨h1, h2⟩ := h
      exact ⟨h1.symm, fun c hc => by rw [← h2] at hc; cases hc⟩
    · exact ih _ _ _ _ h
    · exact ih _ _ _ _ h
    · split at h
      · simp only [Option.some.injEq, Prod.mk.injEq] at h
        obtain ⟨h1, h2⟩ := h
        refine ⟨h1.symm, fun c hc => ?_⟩
        rw [← h2] at hc
        exact (Option.some.inj hc).symm
      · exact ih _ _ _ _ h

/-- C2: restoration invariant of the cycle test — whatever
`test_circular_path` returns (cycle found, virtual exit, or the early
return when nothing lies ahead of the start), the grid's cell array after
the call equals the cell array before it. -/
theorem test_circular_path_restores (m : SituationMap) (s : Coord) (o : Orientation)
    (fuel : Nat) (m2 : SituationMap) (r : Option Coord)
    (h : test_circular_path m s o fuel = some (m2, r)) : m2.map = m.map := by
  unfold test_circular_path at h
  split at h
  · simp only [Option.some.injEq, Prod.mk.injEq] at h
    rw [← h.1]
  · next loc tile heq =>
    obtain ⟨hm2, _⟩ := tcp_loop_result _ _ _ _ _ _ _ _ h
    obtain ⟨_, hat⟩ := front_what_is_at m _ loc tile heq
    obtain ⟨_, _, hget⟩ := what_is_at_bounds m loc tile hat
    rw [hm2]
    show ((m.map.set (m.map_width * loc.row + loc.col) MapElements.Obstructed).set
      (m.map_width * loc.row + loc.col) tile) = m.map
    rw [List.set_set]
    exact set_get?_self _ _ _ hget

/-- Witness for C2: a full concrete run of the cycle test on the 2x2
board (obstruct ahead, rotate, virtual exit) hands back the identical
board. -/
theorem test_circular_path_restores_witness :
    test_circular_path twoByTwo { row := 1, col := 1 } Orientation.Up 20 =
      some (twoByTwo, none) ∧ twoByTwo.map = twoByTwo.map :=
  ⟨rfl, test_circular_path_restores twoByTwo { row := 1, col := 1 } Orientation.Up 20
    twoByTwo none rfl⟩

/-! ### Cycle test: termination (C3) -/



lemma coordUniv_card (m : SituationMap) :
    (coordUniv m).card = 4 * m.map_width * m.map_height := by
  unfold coordUniv
  rw [Finset.card_product, Finset.card_image_of_injective, Finset.card_product,
    Finset.card_range, Finset.card_range]
  · have h4 : ({Orientation.Up, Orientation.Right, Orientation.Down, Orientation.Left} :
        Finset Orientation).card = 4 := by decide
    rw [h4]; ring
  · intro a b hab
    simp only [Coord.mk.injEq] at hab
    exact Prod.ext hab.1 hab.2

lemma mem_coordUniv (m : SituationMap) (c : Coord) (o : Orientation)
    (hr : c.row < m.map_height) (hc : c.col < m.map_width) : (c, o) ∈ coordUniv m := by
  unfold coordUniv
  rw [Finset.mem_product]
  refine ⟨Finset.mem_image.mpr ⟨(c.row, c.col), ?_, by cases c; rfl⟩, by cases o <;> simp⟩
  rw [Finset.mem_product]
  exact ⟨Finset.mem_range.mpr hr, Finset.mem_range.mpr hc⟩

lemma nodup_length_le_univ (m : SituationMap) (vis : List (Coord × Orientation))
    (hnd : vis.Nodup) (hsub : ∀ pr ∈ vis, pr ∈ coordUniv m) :
    vis.length ≤ 4 * m.map_width * m.map_height := by
  have h1 : vis.toFinset.card = vis.length := List.toFinset_card_of_nodup hnd
  have h2 : vis.toFinset ⊆ coordUniv m := fun pr hpr => hsub pr (List.mem_toFinset.mp hpr)
  calc vis.length = vis.toFinset.card := h1.symm
    _ ≤ (coordUniv m).card := Finset.card_le_card h2
    _ = 4 * m.map_width * m.map_height := coordUniv_card m

lemma front_bounds (m : SituationMap) (vp : Player) (c : Coord) (e : MapElements)
    (h : what_is_in_front m vp = some (c, e)) :
    c.row < m.map_height ∧ c.col < m.map_width := by
  obtain ⟨_, hat⟩ := front_what_is_at m vp c e h
  obtain ⟨h1, h2, _⟩ := what_is_at_bounds m c e hat
  exact ⟨h1, h2⟩

lemma front_dist_decrease (m : SituationMap) (vp : Player) (c : Coord) (e : MapElements)
    (h : what_is_in_front m vp = some (c, e)) :
    distAhead m { vp with coords := c } < distAhead m vp := by
  obtain ⟨hfc, hat⟩ := front_what_is_at m vp c e h
  obtain ⟨hrow, hcol, _⟩ := what_is_at_bounds m c e hat
  obtain ⟨o, pc⟩ := vp
  unfold front_coord at hfc
  cases o with
  | Up =>
    simp only at hfc
    by_cases h0 : pc.row = 0
    · rw [if_pos h0] at hfc; cases hfc
    · rw [if_neg h0] at hfc
      obtain rfl := Option.some.inj hfc
      show pc.row - 1 < pc.row
      omega
  | Right =>
    simp only at hfc
    by_cases h0 : pc.col ≥ m.map_width
    · rw [if_pos h0] at hfc; cases hfc
    · rw [if_neg h0] at hfc
      obtain rfl := Option.some.inj hfc
      show m.map_width - (pc.col + 1) < m.map_width - pc.col
      omega
  | Down =>
    simp only at hfc
    by_cases h0 : pc.row + 1 ≥ m.map_height
    · rw [if_pos h0] at hfc; cases hfc
    · rw [if_neg h0] at hfc
      obtain rfl := Option.some.inj hfc
      show m.map_height - (pc.row + 1) < m.map_height - pc.row
      omega
  | Left =>
    simp only at hfc
    by_cases h0 : pc.col = 0
    · rw [if_pos h0] at hfc; cases hfc
    · rw [if_neg h0] at hfc
      obtain rfl := Option.some.inj hfc
      show pc.col - 1 < pc.col
      omega

lemma distAhead_lt (m : SituationMap) (o : Orientation) (pc : Coord)
    (hr : pc.row < m.map_height) (hc : pc.col < m.map_width) :
    distAhead m { orientation := o, coords := pc } < m.map_width + m.map_height + 1 := by
  cases o with
  | Up => show pc.row < m.map_width + m.map_height + 1; omega
  | Right => show m.map_width - pc.col < m.map_width + m.map_height + 1; omega
  | Down => show m.map_height - pc.row < m.map_width + m.map_height + 1; omega
  | Left => show pc.col < m.map_width + m.map_height + 1; omega

lemma tcp_loop_enough_fuel (m : SituationMap) (loc : Coord) (tile : MapElements) :
    ∀ (fuel : Nat) (vp : Player) (vis : List (Coord × Orientation)),
      vp.coords.row < m.map_height → vp.coords.col < m.map_width →
      vis.Nodup → (∀ pr ∈ vis, pr ∈ coordUniv m) →
      (4 * m.map_width * m.map_height - vis.length) * (m.map_width + m.map_height + 1)
          + distAhead m vp < fuel →
      tcp_loop m loc tile fuel vp vis ≠ none := by
  intro fuel
  induction fuel with
  | zero => intro vp vis _ _ _ _ hfuel; exact absurd hfuel (Nat.not_lt_zero _)
  | succ fuel ih =>
    intro vp vis hr hc hnd hsub hfuel hnone
    rw [tcp_loop] at hnone
    split at hnone
    · cases hnone
    · next coord heq =>
      refine ih { vp with coords := coord } vis (front_bounds m vp coord _ heq).1
        (front_bounds m vp coord _ heq).2 hnd hsub ?_ hnone
      have hd := front_dist_decrease m vp coord _ heq
      omega
    · next coord heq =>
      refine ih { vp with coords := coord } vis (front_bounds m vp coord _ heq).1
        (front_bounds m vp coord _ heq).2 hnd hsub ?_ hnone
      have hd := front_dist_decrease m vp coord _ heq
      omega
    · split at hnone
      · cases hnone
      · next hmem =>
        have hnd2 : ((vp.coords, rotate_right vp.orientation) :: vis).Nodup :=
          List.nodup_cons.mpr ⟨hmem, hnd⟩
        have hsub2 : ∀ pr ∈ (vp.coords, rotate_right vp.orientation) :: vis,
            pr ∈ coordUniv m := by
          intro pr hpr
          rcases List.mem_cons.mp hpr with hp | hp
          · rw [hp]; exact mem_coordUniv m vp.coords _ hr hc
          · exact hsub pr hp
        refine ih { vp with orientation := rotate_right vp.orientation }
          ((vp.coords, rotate_right vp.orientation) :: vis) hr hc hnd2 hsub2 ?_ hnone
        have hlen : ((vp.coords, rotate_right vp.orientation) :: vis).length ≤
            4 * m.map_width * m.map_height := nodup_length_le_univ m _ hnd2 hsub2
        rw [List.length_cons] at hlen
        have hd2 : distAhead m { vp with orientation := rotate_right vp.orientation } <
            m.map_width + m.map_height + 1 :=
          distAhead_lt m (rotate_right vp.orientation) vp.coords hr hc
        rw [List.length_cons]
        have hexp : (4 * m.map_width * m.map_height - vis.length) *
            (m.map_width + m.map_height + 1) =
            (4 * m.map_width * m.map_height - (vis.length + 1)) *
              (m.map_width + m.map_height + 1) + (m.map_width + m.map_height + 1) := by
          have h1 : 4 * m.map_width * m.map_height - vis.length =
              (4 * m.map_width * m.map_height - (vis.length + 1)) + 1 := by omega
          rw [h1]; ring
        rw [hexp] at hfuel
        omega

lemma distAhead_set_at (m : SituationMap) (c0 : Coord) (e : MapElements) (vp : Player) :
    distAhead (set_at m c0 e) vp = distAhead m vp := by
  obtain ⟨o, pc⟩ := vp
  cases o <;> rfl

/-- C3: termination of the cycle test. For any board and any in-bounds
starting cursor, the fuel `tcpFuel` — `(4·w·h + 1)·(w + h + 1)`, from the
bound "at most `4·w·h` distinct (coordinate, orientation) pairs can be
inserted, and between insertions the cursor moves at most `w + h` cells
before hitting the boundary or an obstruction" — is enough: the loop
reaches one of its two returns, it never runs out. -/
theorem test_circular_path_terminates (m : SituationMap) (s : Coord) (o : Orientation)
    (hr : s.row < m.map_height) (hc : s.col < m.map_width) :
    test_circular_path m s o (tcpFuel m) ≠ none := by
  unfold test_circular_path
  split
  · simp
  · next loc tile heq =>
    refine tcp_loop_enough_fuel (set_at m loc MapElements.Obstructed) loc tile (tcpFuel m)
      { orientation := o, coords := s } [] hr hc List.nodup_nil
      (by intro pr hpr; cases hpr) ?_
    show (4 * m.map_width * m.map_height - ([] : List (Coord × Orientation)).length) *
        (m.map_width + m.map_height + 1) +
        distAhead (set_at m loc MapElements.Obstructed) { orientation := o, coords := s } <
      tcpFuel m
    rw [distAhead_set_at]
    have hd : distAhead m { orientation := o, coords := s } <
        m.map_width + m.map_height + 1 := distAhead_lt m o s hr hc
    unfold tcpFuel
    rw [List.length_nil, Nat.sub_zero]
    have hexp : (4 * m.map_width * m.map_height + 1) * (m.map_width + m.map_height + 1) =
        4 * m.map_width * m.map_height * (m.map_width + m.map_height + 1) +
          (m.map_width + m.map_height + 1) := by ring
    omega

/-- Witness for C3 on the 2x2 board at its in-bounds cursor. -/
theorem test_circular_path_terminates_witness :
    test_circular_path twoByTwo { row := 1, col := 1 } Orientation.Up (tcpFuel twoByTwo) ≠
      none :=
  test_circular_path_terminates twoByTwo { row := 1, col := 1 } Orientation.Up
    (by decide) (by decide)

/-! ### Part-2 per-tick testing (C4) and the end-to-end example (C5) -/

lemma front_ne_coords (m : SituationMap) (p : Player) (c : Coord) (e : MapElements)
    (h : what_is_in_front m p = some (c, e)) : c ≠ p.coords := by
  obtain ⟨hfc, _⟩ := front_what_is_at m p c e h
  obtain ⟨o, pc⟩ := p
  unfold front_coord at hfc
  cases o with
  | Up =>
    simp only at hfc
    by_cases h0 : pc.row = 0
    · rw [if_pos h0] at hfc; cases hfc
    · rw [if_neg h0] at hfc
      obtain rfl := Option.some.inj hfc
      show ({ row := pc.row - 1, col := pc.col } : Coord) ≠ pc
      intro heq
      have hrow := congrArg Coord.row heq
      simp only at hrow
      omega
  | Right =>
    simp only at hfc
    by_cases h0 : pc.col ≥ m.map_width
    · rw [if_pos h0] at hfc; cases hfc
    · rw [if_neg h0] at hfc
      obtain rfl := Option.some.inj hfc
      show ({ row := pc.row, col := pc.col + 1 } : Coord) ≠ pc
      intro heq
      have hcol := congrArg Coord.col heq
      simp only at hcol
      omega
  | Down =>
    simp only at hfc
    by_cases h0 : pc.row + 1 ≥ m.map_height
    · rw [if_pos h0] at hfc; cases hfc
    · rw [if_neg h0] at hfc
      obtain rfl := Option.some.inj hfc
      show ({ row := pc.row + 1, col := pc.col } : Coord) ≠ pc
      intro heq
      have hrow := congrArg Coord.row heq
      simp only at hrow
      omega
  | Left =>
    simp only at hfc
    by_cases h0 : pc.col = 0
    · rw [if_pos h0] at hfc; cases hfc
    · rw [if_neg h0] at hfc
      obtain rfl := Option.some.inj hfc
      show ({ row := pc.row, col := pc.col - 1 } : Coord) ≠ pc
      intro heq
      have hcol := congrArg Coord.col heq
      simp only at hcol
      omega



/-- C4 counterexample: on `cexBoard` (the parse of `cexInput`) the cell
directly ahead of the initial cursor, (1,2), is Free, and the cycle test
invoked from the initial cursor reports exactly that cell as
cycle-inducing — yet `solve_part_2` returns 0. The code performs one real
step before its first check, so the very first tick is never tested and
the candidate set misses a cell the real patrol stepped onto next. -/
theorem solve_part_2_skips_first_tick :
    try_from cexInput = Except.ok cexBoard ∧
    what_is_in_front cexBoard cexBoard.player =
      some ({ row := 1, col := 2 }, MapElements.Free) ∧
    (test_circular_path cexBoard cexBoard.player.coords cexBoard.player.orientation
        (tcpFuel cexBoard)).map (fun pr => pr.2) = some (some { row := 1, col := 2 }) ∧
    solve_part_2 cexBoard 50 = some 0 :=
  ⟨rfl, rfl, rfl, rfl⟩

lemma part2_check_free (board : SituationMap) (vis : List Coord) (c : Coord)
    (h : what_is_in_front board board.player = some (c, MapElements.Free)) :
    part2_check board vis =
      match test_circular_path board board.player.coords board.player.orientation
          (tcpFuel board) with
      | none => none
      | some (b2, r) => some (b2, r.elim vis (fun cc => vis.insert cc)) := by
  unfold part2_check
  rw [h]
  cases htcp : test_circular_path board board.player.coords board.player.orientation
      (tcpFuel board) with
  | none => rfl
  | some pr =>
    obtain ⟨b2, r⟩ := pr
    cases r <;> rfl

/-- C4 amended: per-tick contract of the part-2 loop, which begins only
after `solve_part_2` performs one initial real step (so the cell ahead of
the cursor's pre-walk position is not a tested candidate on the first
tick). On every tick of the loop, if the cell directly ahead of the
current cursor is Free, the cycle test is invoked with the current cursor
as its starting state; the candidate it obstructs and may report is
exactly that ahead cell — never the cursor's own cell — and a reported
candidate joins the accumulator before the tick's real step. -/
theorem part2_loop_tick (board : SituationMap) (vis : List Coord) (fuel : Nat) (c : Coord)
    (h : what_is_in_front board board.player = some (c, MapElements.Free)) :
    c ≠ board.player.coords ∧
    (∀ b2 cc, test_circular_path board board.player.coords board.player.orientation
        (tcpFuel board) = some (b2, some cc) → cc = c) ∧
    part2_loop (fuel + 1) board vis =
      match test_circular_path board board.player.coords board.player.orientation
          (tcpFuel board) with
      | none => none
      | some (b2, r) =>
        match step b2 with
        | none => none
        | some (_, none) => some (r.elim vis (fun cc => vis.insert cc))
        | some (b3, some _) => part2_loop fuel b3 (r.elim vis (fun cc => vis.insert cc)) := by
  have h2 : what_is_in_front board
      { orientation := board.player.orientation, coords := board.player.coords } =
      some (c, MapElements.Free) := h
  refine ⟨front_ne_coords board board.player c _ h, ?_, ?_⟩
  · intro b2 cc htcp
    unfold test_circular_path at htcp
    split at htcp
    · next hf => rw [h2] at hf; cases hf
    · next loc tile hf =>
      have hlc : loc = c := by
        have := hf.symm.trans h2
        simp only [Option.some.injEq, Prod.mk.injEq] at this
        exact this.1
      obtain ⟨_, hcoord⟩ := tcp_loop_result _ _ _ _ _ _ _ _ htcp
      exact (hcoord cc rfl).trans hlc
  · rw [part2_loop, part2_check_free board vis c h]
    cases htcp : test_circular_path board board.player.coords board.player.orientation
        (tcpFuel board) with
    | none => rfl
    | some pr =>
      obtain ⟨b2, r⟩ := pr
      cases hstep : step b2 with
      | none => cases r <;> rfl
      | some pr2 =>
        obtain ⟨b3, r2⟩ := pr2
        cases r2 <;> cases r <;> rfl

/-- Witness for the C4 amended theorem on the concrete counterexample
board: had the loop run from the initial cursor, the first tick's check
would have found and recorded the candidate (1,2). -/
theorem part2_loop_tick_witness :
    ({ row := 1, col := 2 } : Coord) ≠ cexBoard.player.coords ∧
    part2_loop 7 cexBoard [] = some [{ row := 1, col := 2 }] := by
  have h := part2_loop_tick cexBoard [] 6 { row := 1, col := 2 } rfl
  exact ⟨h.1, h.2.2.trans rfl⟩


/-- C5: the end-to-end worked example. Parsing the standard 10x10 grid
and running the full walk yields 41 distinct visited cells, and the
obstruction search yields 6 distinct cycle-inducing placements. -/
theorem example_end_to_end :
    (try_from exampleInput).map (fun b => solve_part_1 b 10000) = Except.ok (some 41) ∧
    (try_from exampleInput).map (fun b => solve_part_2 b 10000) = Except.ok (some 6) :=
  ⟨rfl, rfl⟩

/-! ### Parser contract (C7) -/





lemma glyphOrient_ne (c : Char) (o : Orientation) (h : glyphOrient c = some o) :
    c ≠ '.' ∧ c ≠ '#' := by
  unfold glyphOrient at h
  by_cases h1 : c = '^'
  · subst h1; exact ⟨by decide, by decide⟩
  · rw [if_neg h1] at h
    by_cases h2 : c = '>'
    · subst h2; exact ⟨by decide, by decide⟩
    · rw [if_neg h2] at h
      by_cases h3 : c = 'v'
      · subst h3; exact ⟨by decide, by decide⟩
      · rw [if_neg h3] at h
        by_cases h4 : c = '<'
        · subst h4; exact ⟨by decide, by decide⟩
        · rw [if_neg h4] at h; cases h

lemma parseChar_glyph_none (row col : Nat) (c : Char) (o : Orientation)
    (h : glyphOrient c = some o) :
    parseChar row col c none = Except.ok (MapElements.PrevouslySeen,
      some { orientation := o, coords := { row := row, col := col } }) := by
  obtain ⟨h1, h2⟩ := glyphOrient_ne c o h
  unfold parseChar
  rw [if_neg h1, if_neg h2, h]

lemma parseChar_glyph_some (row col : Nat) (c : Char) (o : Orientation) (p : Player)
    (h : glyphOrient c = some o) :
    ∃ e, parseChar row col c (some p) = Except.error e := by
  obtain ⟨h1, h2⟩ := glyphOrient_ne c o h
  unfold parseChar
  rw [if_neg h1, if_neg h2, h]
  exact ⟨_, rfl⟩

lemma parseChar_invalid (row col : Nat) (c : Char) (player : Option Player)
    (h1 : c ≠ '.') (h2 : c ≠ '#') (h3 : glyphOrient c = none) :
    ∃ e, parseChar row col c player = Except.error e := by
  unfold parseChar
  rw [if_neg h1, if_neg h2, h3]
  exact ⟨_, rfl⟩

lemma countGlyphs_cons_not (c : Char) (rest : List Char) (h : glyphOrient c = none) :
    countGlyphs (c :: rest) = countGlyphs rest := by
  simp [countGlyphs, List.countP_cons, h]

lemma countGlyphs_cons_glyph (c : Char) (rest : List Char) (o : Orientation)
    (h : glyphOrient c = some o) :
    countGlyphs (c :: rest) = countGlyphs rest + 1 := by
  simp [countGlyphs, List.countP_cons, h]

lemma playerCount_le_one (p : Option Player) : playerCount p ≤ 1 := by
  cases p <;> simp [playerCount]

lemma parseRowChars_spec (row : Nat) :
    ∀ (cs : List Char) (col : Nat) (player : Option Player),
      ((∃ out, parseRowChars row col cs player = Except.ok out) ↔
        ((∀ c ∈ cs, isValidChar c = true) ∧ playerCount player + countGlyphs cs ≤ 1)) ∧
      (∀ els p2, parseRowChars row col cs player = Except.ok (els, p2) →
        playerCount p2 = playerCount player + countGlyphs cs ∧
        els.length = cs.length ∧
        (p2 = player ∨ (player = none ∧ ∃ k gch o, cs.get? k = some gch ∧
          glyphOrient gch = some o ∧
          p2 = some { orientation := o, coords := { row := row, col := col + k } }))) := by
  intro cs
  induction cs with
  | nil =>
    intro col player
    refine ⟨⟨fun _ => ⟨fun c hc => absurd hc (List.not_mem_nil c), ?_⟩,
      fun _ => ⟨([], player), rfl⟩⟩, fun els p2 hok => ?_⟩
    · have := playerCount_le_one player
      simp [countGlyphs]
      omega
    · have hok2 : (Except.ok (([] : List MapElements), player) :
          Except String (List MapElements × Option Player)) = Except.ok (els, p2) := hok
      obtain ⟨hels, hp⟩ : ([] : List MapElements) = els ∧ player = p2 := by simpa using hok2
      rw [← hels, ← hp]
      exact ⟨by simp [countGlyphs], rfl, Or.inl rfl⟩
  | cons c rest ih =>
    intro col player
    by_cases hdot : c = '.'
    · subst hdot
      have hred : parseRowChars row col ('.' :: rest) player =
          match parseRowChars row (col + 1) rest player with
          | Except.error e => Except.error e
          | Except.ok (els, p3) => Except.ok (MapElements.Free :: els, p3) := rfl
      have hg : countGlyphs ('.' :: rest) = countGlyphs rest :=
        countGlyphs_cons_not _ _ rfl
      constructor
      · rw [hred]
        constructor
        · rintro ⟨out, hout⟩
          cases hrec : parseRowChars row (col + 1) rest player with
          | error e => rw [hrec] at hout; cases hout
          | ok out2 =>
            have hprev := (ih (col + 1) player).1.mp ⟨out2, hrec⟩
            refine ⟨fun c2 hc2 => ?_, by omega⟩
            rcases List.mem_cons.mp hc2 with rfl | hc3
            · decide
            · exact hprev.1 c2 hc3
        · rintro ⟨hvalid, hcount⟩
          obtain ⟨⟨els, p3⟩, hout⟩ := (ih (col + 1) player).1.mpr
            ⟨fun c2 hc2 => hvalid c2 (List.mem_cons_of_mem _ hc2), by omega⟩
          rw [hout]
          exact ⟨(MapElements.Free :: els, p3), rfl⟩
      · intro els p2 hok
        rw [hred] at hok
        cases hrec : parseRowChars row (col + 1) rest player with
        | error e => rw [hrec] at hok; cases hok
        | ok out2 =>
          obtain ⟨els0, p3⟩ := out2
          rw [hrec] at hok
          obtain ⟨hels, hp⟩ : MapElements.Free :: els0 = els ∧ p3 = p2 := by
            simpa using hok
          rw [← hels, ← hp]
          obtain ⟨hc1, hc2, hc3⟩ := (ih (col + 1) player).2 els0 p3 hrec
          refine ⟨by omega, by simpa using hc2, ?_⟩
          rcases hc3 with hsame | ⟨hnone, k, gch, o, hk, ho, hp2⟩
          · exact Or.inl hsame
          · refine Or.inr ⟨hnone, k + 1, gch, o, by simpa using hk, ho, ?_⟩
            rw [hp2]
            have hca : col + 1 + k = col + (k + 1) := by omega
            rw [hca]
    · by_cases hhash : c = '#'
      · subst hhash
        have hred : parseRowChars row col ('#' :: rest) player =
            match parseRowChars row (col + 1) rest player with
            | Except.error e => Except.error e
            | Except.ok (els, p3) => Except.ok (MapElements.Obstructed :: els, p3) := rfl
        have hg : countGlyphs ('#' :: rest) = countGlyphs rest :=
          countGlyphs_cons_not _ _ rfl
        constructor
        · rw [hred]
          constructor
          · rintro ⟨out, hout⟩
            cases hrec : parseRowChars row (col + 1) rest player with
            | error e => rw [hrec] at hout; cases hout
            | ok out2 =>
              have hprev := (ih (col + 1) player).1.mp ⟨out2, hrec⟩
              refine ⟨fun c2 hc2 => ?_, by omega⟩
              rcases List.mem_cons.mp hc2 with rfl | hc3
              · decide
              · exact hprev.1 c2 hc3
          · rintro ⟨hvalid, hcount⟩
            obtain ⟨⟨els, p3⟩, hout⟩ := (ih (col + 1) player).1.mpr
              ⟨fun c2 hc2 => hvalid c2 (List.mem_cons_of_mem _ hc2), by omega⟩
            rw [hout]
            exact ⟨(MapElements.Obstructed :: els, p3), rfl⟩
        · intro els p2 hok
          rw [hred] at hok
          cases hrec : parseRowChars row (col + 1) rest player with
          | error e => rw [hrec] at hok; cases hok
          | ok out2 =>
            obtain ⟨els0, p3⟩ := out2
            rw [hrec] at hok
            obtain ⟨hels, hp⟩ : MapElements.Obstructed :: els0 = els ∧ p3 = p2 := by
              simpa using hok
            rw [← hels, ← hp]
            obtain ⟨hc1, hc2, hc3⟩ := (ih (col + 1) player).2 els0 p3 hrec
            refine ⟨by omega, by simpa using hc2, ?_⟩
            rcases hc3 with hsame | ⟨hnone, k, gch, o, hk, ho, hp2⟩
            · exact Or.inl hsame
            · refine Or.inr ⟨hnone, k + 1, gch, o, by simpa using hk, ho, ?_⟩
              rw [hp2]
              have hca : col + 1 + k = col + (k + 1) := by omega
              rw [hca]
      · cases hglyph : glyphOrient c with
        | none =>
          obtain ⟨e, herr⟩ := parseChar_invalid row col c player hdot hhash hglyph
          have hred : parseRowChars row col (c :: rest) player = Except.error e := by
            rw [parseRowChars, herr]
          have hinvalid : isValidChar c = false := by
            unfold isValidChar
            rw [hglyph]
            simp [hdot, hhash]
          constructor
          · rw [hred]
            constructor
            · rintro ⟨out, hout⟩; cases hout
            · rintro ⟨hvalid, _⟩
              have := hvalid c (List.mem_cons_self c rest)
              rw [hinvalid] at this
              cases this
          · intro els p2 hok
            rw [hred] at hok
            cases hok
        | some o =>
          have hg : countGlyphs (c :: rest) = countGlyphs rest + 1 :=
            countGlyphs_cons_glyph c rest o hglyph
          have hcvalid : isValidChar c = true := by
            unfold isValidChar
            rw [hglyph]
            simp
          cases player with
          | some p =>
            obtain ⟨e, herr⟩ := parseChar_glyph_some row col c o p hglyph
            have hred : parseRowChars row col (c :: rest) (some p) = Except.error e := by
              rw [parseRowChars, herr]
            constructor
            · rw [hred]
              constructor
              · rintro ⟨out, hout⟩; cases hout
              · rintro ⟨_, hcount⟩
                rw [hg] at hcount
                simp [playerCount] at hcount
            · intro els p2 hok
              rw [hred] at hok
              cases hok
          | none =>
            have hchar := parseChar_glyph_none row col c o hglyph
            have hred : parseRowChars row col (c :: rest) none =
                match parseRowChars row (col + 1) rest
                    (some { orientation := o, coords := { row := row, col := col } }) with
                | Except.error e => Except.error e
                | Except.ok (els, p3) => Except.ok (MapElements.PrevouslySeen :: els, p3) := by
              rw [parseRowChars, hchar]
            constructor
            · rw [hred]
              constructor
              · rintro ⟨out, hout⟩
                cases hrec : parseRowChars row (col + 1) rest
                    (some { orientation := o, coords := { row := row, col := col } }) with
                | error e => rw [hrec] at hout; cases hout
                | ok out2 =>
                  have hprev := (ih (col + 1)
                    (some { orientation := o, coords := { row := row, col := col } })).1.mp
                    ⟨out2, hrec⟩
                  have hcnt := hprev.2
                  simp only [playerCount] at hcnt
                  refine ⟨fun c2 hc2 => ?_, ?_⟩
                  · rcases List.mem_cons.mp hc2 with rfl | hc3
                    · exact hcvalid
                    · exact hprev.1 c2 hc3
                  · rw [hg]
                    simp only [playerCount]
                    omega
              · rintro ⟨hvalid, hcount⟩
                rw [hg] at hcount
                simp only [playerCount] at hcount
                obtain ⟨⟨els, p3⟩, hout⟩ := (ih (col + 1)
                    (some { orientation := o, coords := { row := row, col := col } })).1.mpr
                  ⟨fun c2 hc2 => hvalid c2 (List.mem_cons_of_mem _ hc2), by
                    simp only [playerCount]; omega⟩
                rw [hout]
                exact ⟨(MapElements.PrevouslySeen :: els, p3), rfl⟩
            · intro els p2 hok
              rw [hred] at hok
              cases hrec : parseRowChars row (col + 1) rest
                  (some { orientation := o, coords := { row := row, col := col } }) with
              | error e => rw [hrec] at hok; cases hok
              | ok out2 =>
                obtain ⟨els0, p3⟩ := out2
                rw [hrec] at hok
                obtain ⟨hels, hp⟩ : MapElements.PrevouslySeen :: els0 = els ∧ p3 = p2 := by
                  simpa using hok
                rw [← hels, ← hp]
                obtain ⟨hc1, hc2, hc3⟩ := (ih (col + 1)
                    (some { orientation := o, coords := { row := row, col := col } })).2
                  els0 p3 hrec
                have hp3some : p3 =
                    some { orientation := o, coords := { row := row, col := col } } := by
                  rcases hc3 with hsame | ⟨hcontra, _⟩
                  · exact hsame
                  · cases hcontra
                refine ⟨?_, by simpa using hc2, ?_⟩
                · rw [hp3some] at hc1 ⊢
                  rw [hg]
                  simp only [playerCount] at hc1 ⊢
                  omega
                · refine Or.inr ⟨rfl, 0, c, o, rfl, hglyph, ?_⟩
                  rw [hp3some]
                  simp
lemma parseLines_spec (width : Nat) :
    ∀ (ls : List (List Char)) (row : Nat) (player : Option Player),
      ((∃ out, parseLines width row ls player = Except.ok out) ↔
        ((∀ l ∈ ls, l.length = width) ∧ (∀ l ∈ ls, ∀ c ∈ l, isValidChar c = true) ∧
          playerCount player + countGlyphsLines ls ≤ 1)) ∧
      (∀ cells h p2, parseLines width row ls player = Except.ok (cells, h, p2) →
        playerCount p2 = playerCount player + countGlyphsLines ls ∧
        h = ls.length ∧ cells.length = width * ls.length ∧
        (p2 = player ∨ (player = none ∧ ∃ i l k gch o, ls.get? i = some l ∧
          l.get? k = some gch ∧ glyphOrient gch = some o ∧
          p2 = some { orientation := o, coords := { row := row + i, col := k } }))) := by
  intro ls
  induction ls with
  | nil =>
    intro row player
    refine ⟨⟨fun _ => ⟨fun l hl => absurd hl (List.not_mem_nil l),
      fun l hl => absurd hl (List.not_mem_nil l), ?_⟩,
      fun _ => ⟨([], 0, player), rfl⟩⟩, fun cells h p2 hok => ?_⟩
    · have := playerCount_le_one player
      simp [countGlyphsLines]
      omega
    · have hok2 : (Except.ok (([] : List MapElements), 0, player) :
          Except String (List MapElements × Nat × Option Player)) =
          Except.ok (cells, h, p2) := hok
      obtain ⟨hc, hh, hp⟩ : ([] : List MapElements) = cells ∧ 0 = h ∧ player = p2 := by
        simpa using hok2
      rw [← hc, ← hh, ← hp]
      exact ⟨by simp [countGlyphsLines], rfl, by simp, Or.inl rfl⟩
  | cons line rest ih =>
    intro row player
    have hgl : countGlyphsLines (line :: rest) = countGlyphs line + countGlyphsLines rest := by
      simp [countGlyphsLines]
    by_cases hw : line.length = width
    · have hred : parseLines width row (line :: rest) player =
          match parseRowChars row 0 line player with
          | Except.error e => Except.error e
          | Except.ok (cells, player2) =>
            match parseLines width (row + 1) rest player2 with
            | Except.error e => Except.error e
            | Except.ok (cells2, h, player3) =>
              Except.ok (cells ++ cells2, h + 1, player3) := by
        rw [parseLines, if_pos hw]
      constructor
      · rw [hred]
        constructor
        · rintro ⟨out, hout⟩
          cases hrow : parseRowChars row 0 line player with
          | error e => rw [hrow] at hout; cases hout
          | ok out1 =>
            obtain ⟨cells1, player2⟩ := out1
            rw [hrow] at hout
            have hout2 : (match parseLines width (row + 1) rest player2 with
                | Except.error e => Except.error e
                | Except.ok (cs2, hh, player3) =>
                  Except.ok (cells1 ++ cs2, hh + 1, player3)) = Except.ok out := hout
            have hrowiff := (parseRowChars_spec row line 0 player).1.mp ⟨_, hrow⟩
            obtain ⟨hpc2, _, _⟩ := (parseRowChars_spec row line 0 player).2 cells1 player2 hrow
            cases hrec : parseLines width (row + 1) rest player2 with
            | error e => rw [hrec] at hout2; cases hout2
            | ok out2 =>
              have hreciff := (ih (row + 1) player2).1.mp ⟨out2, hrec⟩
              refine ⟨fun l hl => ?_, fun l hl => ?_, ?_⟩
              · rcases List.mem_cons.mp hl with rfl | hl2
                · exact hw
                · exact hreciff.1 l hl2
              · rcases List.mem_cons.mp hl with rfl | hl2
                · exact hrowiff.1
                · exact hreciff.2.1 l hl2
              · have hrc := hreciff.2.2
                rw [hgl]
                omega
        · rintro ⟨hwidths, hvalid, hcount⟩
          rw [hgl] at hcount
          obtain ⟨⟨cells1, player2⟩, hrow⟩ := (parseRowChars_spec row line 0 player).1.mpr
            ⟨hvalid line (List.mem_cons_self line rest), by omega⟩
          obtain ⟨hpc2, _, _⟩ := (parseRowChars_spec row line 0 player).2 cells1 player2 hrow
          obtain ⟨out2, hrec⟩ := (ih (row + 1) player2).1.mpr
            ⟨fun l hl => hwidths l (List.mem_cons_of_mem _ hl),
             fun l hl => hvalid l (List.mem_cons_of_mem _ hl), by omega⟩
          obtain ⟨cells2, h2, p3⟩ := out2
          refine ⟨(cells1 ++ cells2, h2 + 1, p3), ?_⟩
          have hstep2 : (match parseRowChars row 0 line player with
              | Except.error e => Except.error e
              | Except.ok (cs1, pl2) =>
                match parseLines width (row + 1) rest pl2 with
                | Except.error e => Except.error e
                | Except.ok (cs2, hh, player3) =>
                  Except.ok (cs1 ++ cs2, hh + 1, player3)) =
              (match parseLines width (row + 1) rest player2 with
                | Except.error e => Except.error e
                | Except.ok (cs2, hh, player3) =>
                  Except.ok (cells1 ++ cs2, hh + 1, player3)) := by
            rw [hrow]
          rw [hstep2, hrec]
      · intro cells h p2 hok
        rw [hred] at hok
        cases hrow : parseRowChars row 0 line player with
        | error e => rw [hrow] at hok; cases hok
        | ok out1 =>
          obtain ⟨cells1, player2⟩ := out1
          rw [hrow] at hok
          have hok2 : (match parseLines width (row + 1) rest player2 with
              | Except.error e => Except.error e
              | Except.ok (cs2, hh, player3) =>
                Except.ok (cells1 ++ cs2, hh + 1, player3)) = Except.ok (cells, h, p2) := hok
          cases hrec : parseLines width (row + 1) rest player2 with
          | error e => rw [hrec] at hok2; cases hok2
          | ok out2 =>
            obtain ⟨cells2, h2, p3⟩ := out2
            rw [hrec] at hok2
            obtain ⟨hc, hh, hp⟩ : cells1 ++ cells2 = cells ∧ h2 + 1 = h ∧ p3 = p2 := by
              simpa using hok2
            rw [← hc, ← hh, ← hp]
            obtain ⟨hrow1, hrow2, hrow3⟩ :=
              (parseRowChars_spec row line 0 player).2 cells1 player2 hrow
            obtain ⟨hrec1, hrec2, hrec3, hrec4⟩ := (ih (row + 1) player2).2 cells2 h2 p3 hrec
            refine ⟨by rw [hgl]; omega, by rw [hrec2]; simp, ?_, ?_⟩
            · rw [List.length_append, hrow2, hrec3, hw, List.length_cons, Nat.mul_succ]
              omega
            · rcases hrec4 with hsame | ⟨hp2none, i, l, k, gch, o, hi, hk, ho, hp3eq⟩
              · rcases hrow3 with hsame2 | ⟨hplayernone, k, gch, o, hk, ho, hp2eq⟩
                · exact Or.inl (hsame.trans hsame2)
                · refine Or.inr ⟨hplayernone, 0, line, k, gch, o, rfl, hk, ho, ?_⟩
                  rw [hsame, hp2eq]
                  simp
              · have hplayernone : player = none := by
                  rcases hrow3 with hsame2 | ⟨hpn, _⟩
                  · rw [← hsame2]; exact hp2none
                  · exact hpn
                refine Or.inr ⟨hplayernone, i + 1, l, k, gch, o, by simpa using hi, hk, ho, ?_⟩
                rw [hp3eq]
                have hra : row + 1 + i = row + (i + 1) := by omega
                rw [hra]
    · have hred : parseLines width row (line :: rest) player =
          Except.error ("Line is not of the first line's width") := by
        rw [parseLines, if_neg hw]
      constructor
      · rw [hred]
        constructor
        · rintro ⟨out, hout⟩; cases hout
        · rintro ⟨hwidths, _, _⟩
          exact absurd (hwidths line (List.mem_cons_self line rest)) hw
      · intro cells h p2 hok
        rw [hred] at hok
        cases hok

lemma splitLinesChars_ne_nil (c : Char) (cs : List Char) : splitLinesChars (c :: cs) ≠ [] := by
  unfold splitLinesChars
  split
  · next heq => exact absurd heq (by simp)
  · simp
  · simp
  · split <;> simp

lemma charLines_nil_iff (s : String) : charLines s = [] ↔ s = "" := by
  constructor
  · intro h
    unfold charLines at h
    obtain ⟨data⟩ := s
    cases data with
    | nil => rfl
    | cons c cs => exact absurd h (splitLinesChars_ne_nil c cs)
  · intro h
    rw [h]
    rfl

/-- C7: the parse contract of `TryFrom<&str>`. Construction succeeds
exactly when the input is non-empty, every line has the first line's
length, every character is one of the six recognized glyphs, and exactly
one cursor glyph occurs; and on success the grid's player coordinate and
orientation are those of that unique glyph. (Line lengths are counted in
characters; over the accepted ASCII alphabet this equals Rust's byte
`len()`.) -/
theorem try_from_contract (value : String) :
    ((∃ b, try_from value = Except.ok b) ↔
      (value ≠ "" ∧
        (∀ l ∈ charLines value, l.length = ((charLines value).headD []).length) ∧
        (∀ l ∈ charLines value, ∀ c ∈ l, isValidChar c = true) ∧
        countGlyphsLines (charLines value) = 1)) ∧
    (∀ b, try_from value = Except.ok b →
      ∃ l gch, (charLines value).get? b.player.coords.row = some l ∧
        l.get? b.player.coords.col = some gch ∧
        glyphOrient gch = some b.player.orientation) := by
  cases hcl : charLines value with
  | nil =>
    have hval : value = "" := (charLines_nil_iff value).mp hcl
    have hred : try_from value = Except.error
        ("Failed to get map width because the board does not contain at least one line.") := by
      unfold try_from
      rw [hcl]
    constructor
    · rw [hred]
      constructor
      · rintro ⟨b, hb⟩; cases hb
      · rintro ⟨hne, _⟩; exact absurd hval hne
    · intro b hb
      rw [hred] at hb
      cases hb
  | cons first rest =>
    have hne : value ≠ "" := by
      intro h
      rw [(charLines_nil_iff value).mpr h] at hcl
      cases hcl
    have hred : try_from value =
        match parseLines first.length 0 (first :: rest) none with
        | Except.error e => Except.error e
        | Except.ok (cells, height, op) =>
          match op with
          | none => Except.error ("Failed to detect player")
          | some player =>
            Except.ok { player := player, map := cells, map_width := first.length, map_height := height } := by
      unfold try_from
      rw [hcl]
    simp only [List.headD_cons]
    cases hpl : parseLines first.length 0 (first :: rest) none with
    | error e =>
      constructor
      · constructor
        · rintro ⟨b, hb⟩
          rw [hred, hpl] at hb
          cases hb
        · rintro ⟨_, hwidths, hvalid, hcount⟩
          obtain ⟨out, hout⟩ := (parseLines_spec first.length (first :: rest) 0 none).1.mpr
            ⟨hwidths, hvalid, by simp only [playerCount]; omega⟩
          rw [hout] at hpl
          cases hpl
      · intro b hb
        rw [hred, hpl] at hb
        cases hb
    | ok out =>
      obtain ⟨cells, height, op⟩ := out
      cases op with
      | none =>
        have hprops := (parseLines_spec first.length (first :: rest) 0 none).2 cells height
          none hpl
        constructor
        · constructor
          · rintro ⟨b, hb⟩
            rw [hred, hpl] at hb
            cases hb
          · rintro ⟨_, _, _, hcount⟩
            have h0 := hprops.1
            simp only [playerCount] at h0
            omega
        · intro b hb
          rw [hred, hpl] at hb
          cases hb
      | some player =>
        have hprops := (parseLines_spec first.length (first :: rest) 0 none).2 cells height
          (some player) hpl
        have hiff := (parseLines_spec first.length (first :: rest) 0 none).1.mp
          ⟨(cells, height, some player), hpl⟩
        have hcgl : countGlyphsLines (first :: rest) = 1 := by
          have h1 := hprops.1
          simp only [playerCount] at h1
          omega
        have hokred : try_from value =
            Except.ok { player := player, map := cells, map_width := first.length, map_height := height } := by
          rw [hred, hpl]
        constructor
        · exact ⟨fun _ => ⟨hne, hiff.1, hiff.2.1, hcgl⟩, fun _ => ⟨_, hokred⟩⟩
        · intro b hb
          rw [hokred] at hb
          have hb2 : ({ player := player, map := cells, map_width := first.length, map_height := height } : SituationMap) = b := by
            simpa using hb
          rcases hprops.2.2.2 with hcontra | ⟨_, i, l, k, gch, o, hi, hk, ho, hpeq⟩
          · cases hcontra
          · have hplayer : player =
                { orientation := o, coords := { row := 0 + i, col := k } } :=
              Option.some.inj hpeq
            refine ⟨l, gch, ?_, ?_, ?_⟩
            · rw [← hb2, hplayer]
              simpa using hi
            · rw [← hb2, hplayer]
              exact hk
            · rw [← hb2, hplayer]
              exact ho

/-- Witness for C7: a concrete non-empty, well-formed two-character board
parses successfully, and the input whose bare trailing carriage return
Rust `str::lines` keeps inside the line is rejected (the kept CR is not
a recognized character). -/
theorem try_from_contract_witness :
    (∃ b, try_from (">.") = Except.ok b) ∧
    ¬∃ b, try_from ("^.\x0d") = Except.ok b :=
  ⟨(try_from_contract (">.")).1.mpr (by decide),
    fun hex => absurd ((try_from_contract ("^.\x0d")).1.mp hex) (by decide)⟩

/-! ### Visited-count invariant (C8) -/

lemma stepMove_preserves (m : SituationMap) (coord : Coord) (m2 : SituationMap)
    (r : Option Coord) (h : stepMove m coord = some (m2, r)) :
    m2.map_width = m.map_width ∧ m2.map_height = m.map_height ∧
    m2.map.length = m.map.length ∧ seen_tiles m ≤ seen_tiles m2 := by
  unfold stepMove at h
  split at h
  · cases h
  · next m3 hupd =>
    obtain ⟨h1, _⟩ : m3 = m2 ∧ some coord = r := by simpa using h
    unfold update_map at hupd
    split at hupd
    · cases hupd
    · have h3 : set_at { m with player := { m.player with coords := coord } } coord
          MapElements.PrevouslySeen = m3 := by simpa using hupd
      rw [← h1, ← h3]
      refine ⟨rfl, rfl, by simp [set_at], ?_⟩
      exact countP_le_countP_set (fun t => decide (t = MapElements.PrevouslySeen)) m.map
        (m.map_width * coord.row + coord.col) MapElements.PrevouslySeen (by decide)

lemma step_preserves (m m2 : SituationMap) (r : Option Coord) (h : step m = some (m2, r)) :
    m2.map_width = m.map_width ∧ m2.map_height = m.map_height ∧
    m2.map.length = m.map.length ∧ seen_tiles m ≤ seen_tiles m2 := by
  unfold step at h
  split at h
  · obtain ⟨h1, _⟩ : m = m2 ∧ none = r := by simpa using h
    rw [← h1]
    exact ⟨rfl, rfl, rfl, Nat.le_refl _⟩
  · exact stepMove_preserves m _ m2 r h
  · exact stepMove_preserves m _ m2 r h
  · obtain ⟨h1, _⟩ :
        ({ m with player := { m.player with orientation := rotate_right m.player.orientation } } : SituationMap) = m2 ∧ some m.player.coords = r := by
      simpa using h
    rw [← h1]
    exact ⟨rfl, rfl, rfl, Nat.le_refl _⟩

lemma stepN_preserves (n : Nat) : ∀ (m m2 : SituationMap), stepN n m = some m2 →
    m2.map_width = m.map_width ∧ m2.map_height = m.map_height ∧
    m2.map.length = m.map.length := by
  induction n with
  | zero =>
    intro m m2 h
    obtain rfl : m = m2 := by simpa [stepN] using h
    exact ⟨rfl, rfl, rfl⟩
  | succ n ihn =>
    intro m m2 h
    rw [stepN] at h
    rw [Option.bind_eq_some] at h
    obtain ⟨m1, hm1, hrec⟩ := h
    unfold stepMap at hm1
    rw [Option.map_eq_some'] at hm1
    obtain ⟨⟨m1', r⟩, hstep, hfst⟩ := hm1
    have hfst2 : m1' = m1 := hfst
    obtain ⟨h1, h2, h3, _⟩ := step_preserves m m1' r hstep
    obtain ⟨g1, g2, g3⟩ := ihn m1 m2 hrec
    rw [← hfst2] at g1 g2 g3
    exact ⟨g1.trans h1, g2.trans h2, g3.trans h3⟩

lemma try_from_len (s : String) (m : SituationMap) (h : try_from s = Except.ok m) :
    m.map.length = m.map_width * m.map_height := by
  unfold try_from at h
  split at h
  · cases h
  · next first rest hcl =>
    split at h
    · cases h
    · next cells height op hpl =>
      split at h
      · cases h
      · next player =>
        have hm : ({ player := player, map := cells, map_width := first.length, map_height := height } : SituationMap) = m := by
          simpa using h
        obtain ⟨_, hh, hlen, _⟩ :=
          (parseLines_spec first.length (first :: rest) 0 none).2 cells height (some player) hpl
        rw [← hm]
        show cells.length = first.length * height
        rw [hh]
        exact hlen

/-- C8: the visited count `seen_tiles` never decreases across a `step`
call, and after any number of `step` calls on a validly parsed grid it
never exceeds `width × height` (the parsed cell array has exactly
`width × height` cells and `step` preserves that). -/
theorem seen_tiles_monotone_and_bounded :
    (∀ m m2 r, step m = some (m2, r) → seen_tiles m ≤ seen_tiles m2) ∧
    (∀ s m n m2, try_from s = Except.ok m → stepN n m = some m2 →
      seen_tiles m2 ≤ m2.map_width * m2.map_height) := by
  refine ⟨fun m m2 r h => (step_preserves m m2 r h).2.2.2,
    fun s m n m2 hparse hsteps => ?_⟩
  have hlen : m.map.length = m.map_width * m.map_height := try_from_len s m hparse
  obtain ⟨h1, h2, h3⟩ := stepN_preserves n m m2 hsteps
  have hseen : seen_tiles m2 ≤ m2.map.length := List.countP_le_length _
  rw [h3, hlen, ← h1, ← h2] at hseen
  exact hseen


/-- Witness for C8: one `step` on the one-by-one board and one `stepN`
run on a parsed two-cell board. -/
theorem seen_tiles_monotone_and_bounded_witness :
    seen_tiles oneByOne ≤ seen_tiles oneByOne ∧
    seen_tiles parsedTiny ≤ parsedTiny.map_width * parsedTiny.map_height :=
  ⟨seen_tiles_monotone_and_bounded.1 oneByOne oneByOne none rfl,
    seen_tiles_monotone_and_bounded.2 ("^.") parsedTiny 1 parsedTiny rfl rfl⟩

end Day06
